import Mathlib

/-!
Verification of the PL-Marker annotator core (src/entity_annotator.py and
src/utils.py) against its natural-language specification.

The Python data model is shallowly embedded: a document is sentences
(lists of token strings), per-sentence buckets of entity triples
`[start, end, type]` and relation 5-tuples
`[srcStart, srcEnd, tgtStart, tgtEnd, type]`, all addressed by global
token indices.  Mutation operations of `EntityAnnotator` become pure
functions on an explicit application state; the undo/redo journal is a
pair of bounded stacks.  All definitions are computable so concrete
witnesses evaluate by `decide` / `rfl`.
-/

namespace PLMarker

/-- An entity record `[start, end, type]` (src/entity_annotator.py stores
these as bare 3-element lists; `start <= end` are inclusive global token
indices).  The type value is a string here; the list-valued variant that
`normalize_type` flattens is modelled separately by `TypeVal`. -/
structure Entity where
  start : Nat
  stop : Nat
  ty : String
  deriving Repr, DecidableEq

/-- A relation record `[srcStart, srcEnd, tgtStart, tgtEnd, type]`. -/
structure Relation where
  srcStart : Nat
  srcEnd : Nat
  tgtStart : Nat
  tgtEnd : Nat
  ty : String
  deriving Repr, DecidableEq

/-- The in-memory document `self.doc`: sentences of token strings plus the
per-sentence-bucketed `ner` and `relations` arrays. -/
structure Doc where
  sentences : List (List String)
  ner : List (List Entity)
  relations : List (List Relation)
  deriving Repr, DecidableEq

/-- An undo/redo journal record, tagged by the `action` string used in the
Python dictionaries pushed onto `self.undo_stack`. -/
inductive UndoRec where
  | addEntity (entity : Entity)
  | addRelation (relation : Relation)
  | deleteEntity (entity : Entity) (relations : List Relation)
  | deleteAllRelations (relations : List (List Relation))
  deriving Repr, DecidableEq

/-- The slice of `EntityAnnotator` state that the mutation operations read
and write.  Entity-selection keys are the Python strings
`f"{start}-{end}"`, modelled by the pair `(start, end)` (the string key is
injective on pairs of naturals, and `delete_selected_entity` parses it
right back with `map(int, entity_key.split('-'))`). -/
structure AppState where
  doc : Doc
  selectedTokens : List Nat
  selectedEntityType : Option String
  selectedEntities : List (Nat × Nat)
  relationSourceEntity : Option Entity
  relationTargetEntity : Option Entity
  selectedRelationType : Option String
  undoStack : List UndoRec
  redoStack : List UndoRec
  deriving Repr, DecidableEq

/-- Constant `cfg.MAX_UNDO_HISTORY`, the `maxlen` of both history deques. -/
def MAX_UNDO_HISTORY : Nat := 50

/-- Python `deque(maxlen=bound).append`: append on the right, dropping the oldest
entries on the left when the deque is full. -/
def pushBounded (bound : Nat) (a : α) (st : List α) : List α :=
  let st' := st ++ [a]
  if bound < st'.length then st'.drop (st'.length - bound) else st'

/-- Python `min` over the (nonempty) selected-token list; returns 0 on the
empty list, which the callers guard against. -/
def listMin : List Nat → Nat
  | [] => 0
  | x :: xs => xs.foldl Nat.min x

/-- Python `max` over the (nonempty) selected-token list. -/
def listMax : List Nat → Nat
  | [] => 0
  | x :: xs => xs.foldl Nat.max x

/-- The padding loop `while len(buckets) < n: buckets.append([])` used
before every bucket-0 insert. -/
def padTo (n : Nat) (buckets : List (List α)) : List (List α) :=
  buckets ++ List.replicate (n - buckets.length) []

/-- Python `buckets[0].append(x)`.  The `[]` case is unreachable in the guarded
call sites (after padding, the bucket list is nonempty whenever the
document has a sentence; Python would raise `IndexError` otherwise). -/
def appendBucket0 (x : α) : List (List α) → List (List α)
  | [] => []
  | b :: bs => (b ++ [x]) :: bs

/-- The duplicate-span scan of `create_new_entity`: overwrite the type of
the first entity with span `(s, e)` in a single bucket, or report that the
bucket has no such entity. -/
def replaceFirstMatch (s e : Nat) (ty : String) : List Entity → Option (List Entity)
  | [] => none
  | ent :: rest =>
    if ent.start = s ∧ ent.stop = e then some ({ ent with ty := ty } :: rest)
    else (replaceFirstMatch s e ty rest).map (ent :: ·)

/-- The duplicate-span scan across all `ner` buckets (bucket order, then
entity order, exactly the loop order of `create_new_entity`). -/
def overwriteEntityBuckets (s e : Nat) (ty : String) :
    List (List Entity) → Option (List (List Entity))
  | [] => none
  | b :: bs =>
    match replaceFirstMatch s e ty b with
    | some b' => some (b' :: bs)
    | none => (overwriteEntityBuckets s e ty bs).map (b :: ·)

/-- Method `EntityAnnotator.create_new_entity`: guarded on a nonempty token
selection and a truthy selected type; overwrite the type of an existing
same-span entity in place (early return, no journal entry), else pad the
`ner` buckets and append `[start, end, type]` to bucket 0, push an
`add_entity` record and clear the redo stack. -/
def createNewEntity (st : AppState) : AppState :=
  match st.selectedEntityType with
  | none => st
  | some ty =>
    if st.selectedTokens = [] ∨ ty = "" then st
    else
      let s := listMin st.selectedTokens
      let e := listMax st.selectedTokens
      match overwriteEntityBuckets s e ty st.doc.ner with
      | some ner' => { st with doc := { st.doc with ner := ner' } }
      | none =>
        let ner' := appendBucket0 ⟨s, e, ty⟩ (padTo st.doc.sentences.length st.doc.ner)
        { st with
          doc := { st.doc with ner := ner' }
          undoStack := pushBounded MAX_UNDO_HISTORY (.addEntity ⟨s, e, ty⟩) st.undoStack
          redoStack := []
          selectedTokens := []
          selectedEntityType := none }

/-- Overwrite the type of the first relation matching the 4-tuple key in a
single bucket. -/
def replaceFirstRelMatch (r : Relation) : List Relation → Option (List Relation)
  | [] => none
  | rel :: rest =>
    if rel.srcStart = r.srcStart ∧ rel.srcEnd = r.srcEnd ∧
        rel.tgtStart = r.tgtStart ∧ rel.tgtEnd = r.tgtEnd then
      some ({ rel with ty := r.ty } :: rest)
    else (replaceFirstRelMatch r rest).map (rel :: ·)

/-- The duplicate-4-tuple scan across all `relations` buckets. -/
def overwriteRelationBuckets (r : Relation) :
    List (List Relation) → Option (List (List Relation))
  | [] => none
  | b :: bs =>
    match replaceFirstRelMatch r b with
    | some b' => some (b' :: bs)
    | none => (overwriteRelationBuckets r bs).map (b :: ·)

/-- Method `EntityAnnotator.create_new_relation`: guarded on source, target and a
truthy type; overwrite an existing relation with the same 4-tuple key in
place (early return, no journal entry), else pad and append to bucket 0,
push an `add_relation` record and clear the redo stack. -/
def createNewRelation (st : AppState) : AppState :=
  match st.relationSourceEntity, st.relationTargetEntity, st.selectedRelationType with
  | some src, some tgt, some ty =>
    if ty = "" then st
    else
      let r : Relation := ⟨src.start, src.stop, tgt.start, tgt.stop, ty⟩
      match overwriteRelationBuckets r st.doc.relations with
      | some rels' => { st with doc := { st.doc with relations := rels' } }
      | none =>
        let rels' := appendBucket0 r (padTo st.doc.sentences.length st.doc.relations)
        { st with
          doc := { st.doc with relations := rels' }
          undoStack := pushBounded MAX_UNDO_HISTORY (.addRelation r) st.undoStack
          redoStack := []
          relationSourceEntity := none
          relationTargetEntity := none
          selectedRelationType := none }
  | _, _, _ => st

/-- Whether a relation references span `(s, e)` as its source or target,
the cascade-deletion criterion of `delete_selected_entity`. -/
def matchesSpan (s e : Nat) (r : Relation) : Prop :=
  (r.srcStart = s ∧ r.srcEnd = e) ∨ (r.tgtStart = s ∧ r.tgtEnd = e)

instance (s e : Nat) (r : Relation) : Decidable (matchesSpan s e r) := by
  unfold matchesSpan; infer_instance

/-- The type-lookup loop of `delete_selected_entity`: scan buckets in
order, take each bucket's first same-span entity's type, and stop as soon
as a truthy (nonempty) type is found.  A falsy final value makes the
whole operation return early, so `none` here stands for both Python
`None` and a falsy type string. -/
def findEntityType (s e : Nat) : List (List Entity) → Option String
  | [] => none
  | b :: bs =>
    match b.find? (fun ent => decide (ent.start = s ∧ ent.stop = e)) with
    | some ent => if ent.ty = "" then findEntityType s e bs else some ent.ty
    | none => findEntityType s e bs

/-- Remove the first entity with span `(s, e)` from a bucket (the
`pop(i); break` loop body, which runs once per bucket). -/
def removeFirstEntity (s e : Nat) : List Entity → List Entity
  | [] => []
  | ent :: rest =>
    if ent.start = s ∧ ent.stop = e then rest
    else ent :: removeFirstEntity s e rest

/-- The relations removed by the cascade of `delete_selected_entity`, in
bucket order then in-bucket order (the order the Python loop copies them
into `removed_relations`). -/
def cascadeRemoved (s e : Nat) (rels : List (List Relation)) : List Relation :=
  (rels.map (fun b => b.filter (fun r => decide (matchesSpan s e r)))).flatten

/-- Method `EntityAnnotator.delete_selected_entity`: resolve the selected span
key, find the entity's type (early return when falsy), remove every
relation whose source or target span matches, remove the first same-span
entity of each bucket, push a `delete_entity` record carrying the entity
and all removed relations, clear the redo stack and the selection. -/
def deleteSelectedEntity (st : AppState) : AppState :=
  match st.selectedEntities with
  | [] => st
  | (s, e) :: _ =>
    match findEntityType s e st.doc.ner with
    | none => st
    | some ty =>
      let removedRels := cascadeRemoved s e st.doc.relations
      let relations' := st.doc.relations.map
        (fun b => b.filter (fun r => !(decide (matchesSpan s e r))))
      let ner' := st.doc.ner.map (removeFirstEntity s e)
      { st with
        doc := { st.doc with ner := ner', relations := relations' }
        undoStack := pushBounded MAX_UNDO_HISTORY
          (.deleteEntity ⟨s, e, ty⟩ removedRels) st.undoStack
        redoStack := []
        selectedEntities := [] }

/-- Method `EntityAnnotator.delete_selected_tokens` as it stands in
src/entity_annotator.py: a placeholder that clears the token selection,
sets the status message "Token deletion not yet implemented" and
re-renders.  The document is left untouched. -/
def deleteSelectedTokens (st : AppState) : AppState :=
  { st with selectedTokens := [] }

/-- The `D`-key branch of `EntityAnnotator.handle_key_down`: a nonempty
entity selection triggers the cascade delete, otherwise a nonempty token
selection triggers the token-deletion operation. -/
def handleKeyD (st : AppState) : AppState :=
  if st.selectedEntities ≠ [] then deleteSelectedEntity st
  else if st.selectedTokens ≠ [] then deleteSelectedTokens st
  else st

/-- Method `EntityAnnotator.delete_all_relations`: no-op on a falsy (empty)
relations array, else snapshot the buckets, replace them by one empty
bucket per sentence, push a `delete_all_relations` record and clear the
redo stack. -/
def deleteAllRelations (st : AppState) : AppState :=
  if st.doc.relations = [] then st
  else
    { st with
      doc := { st.doc with relations := st.doc.sentences.map (fun _ => []) }
      undoStack := pushBounded MAX_UNDO_HISTORY
        (.deleteAllRelations st.doc.relations) st.undoStack
      redoStack := [] }

/-- Remove the first matching entity in each bucket (the undo handler for
`add_entity`: its inner loop breaks, its outer loop does not). -/
def removeFirstEntityPerBucket (s e : Nat) (buckets : List (List Entity)) :
    List (List Entity) :=
  buckets.map (removeFirstEntity s e)

/-- Remove the first relation matching the 4-tuple key from a bucket. -/
def removeFirstRelation (r : Relation) : List Relation → List Relation
  | [] => []
  | rel :: rest =>
    if rel.srcStart = r.srcStart ∧ rel.srcEnd = r.srcEnd ∧
        rel.tgtStart = r.tgtStart ∧ rel.tgtEnd = r.tgtEnd then rest
    else rel :: removeFirstRelation r rest

/-- Method `EntityAnnotator.undo`: pop the newest record, move it to the redo
stack, and apply the inverse mutation.  Only `add_entity`, `add_relation`
and `delete_entity` have inverse branches; any other record (in
particular `delete_all_relations`) moves between the stacks without
touching the document. -/
def undo (st : AppState) : AppState :=
  match st.undoStack.getLast? with
  | none => st
  | some rec' =>
    let undoStack' := st.undoStack.dropLast
    let redoStack' := pushBounded MAX_UNDO_HISTORY rec' st.redoStack
    match rec' with
    | .addEntity ent =>
      { st with
        doc := { st.doc with
          ner := removeFirstEntityPerBucket ent.start ent.stop st.doc.ner }
        undoStack := undoStack', redoStack := redoStack' }
    | .addRelation r =>
      { st with
        doc := { st.doc with relations := st.doc.relations.map (removeFirstRelation r) }
        undoStack := undoStack', redoStack := redoStack' }
    | .deleteEntity ent rels =>
      let ner' := appendBucket0 ent (padTo st.doc.sentences.length st.doc.ner)
      let relations' := rels.foldl
        (fun acc r => appendBucket0 r (padTo st.doc.sentences.length acc))
        st.doc.relations
      { st with
        doc := { st.doc with ner := ner', relations := relations' }
        undoStack := undoStack', redoStack := redoStack' }
    | .deleteAllRelations _ =>
      { st with undoStack := undoStack', redoStack := redoStack' }

/-- The union value an entity/relation type field can carry in raw
records: a plain string, or a list (inconsistent upstream data). -/
inductive TypeVal where
  | str (s : String)
  | lst (l : List String)
  deriving Repr, DecidableEq

/-- Function `utils.normalize_type`: a list yields its first element (or "Unknown"
when empty); anything else is returned unchanged. -/
def normalizeType : TypeVal → TypeVal
  | .lst [] => .str "Unknown"
  | .lst (x :: _) => .str x
  | .str s => .str s

/-- A pygame.Rect: integer position and size (screen coordinates can go
negative once the document is scrolled). -/
structure Rect where
  x : Int
  y : Int
  w : Int
  h : Int
  deriving Repr, DecidableEq

/-- The rectangle's right edge, `pygame.Rect.right`. -/
def Rect.right (r : Rect) : Int := r.x + r.w

/-- The rectangle's bottom edge, `pygame.Rect.bottom`. -/
def Rect.bottom (r : Rect) : Int := r.y + r.h

/-- Property `pygame.Rect.centerx = x + w // 2` (width is nonnegative, so Int
truncated division agrees with Python floor division). -/
def Rect.centerx (r : Rect) : Int := r.x + r.w / 2

/-- Property `pygame.Rect.centery = y + h // 2`. -/
def Rect.centery (r : Rect) : Int := r.y + r.h / 2

/-- One entry of `self.rendered_tokens`. -/
structure TokenBox where
  text : String
  sentIdx : Nat
  tokIdx : Nat
  globalIdx : Nat
  rect : Rect
  selected : Bool
  deriving Repr, DecidableEq

/-- The layout inputs of `render_document`: the font-metrics provider
(`font.size(text)[0]` and `font.get_height()`), the document container,
the scroll offset, and the current selections (which only affect the
`selected` flags). -/
structure LayoutCfg where
  fontWidth : String → Nat
  fontHeight : Nat
  container : Rect
  scrollY : Int
  selectedTokens : List Nat
  selectedEntities : List (Nat × Nat)

/-- Constant `line_height = font.get_height() + cfg.TOKEN_LINE_HEIGHT_EXTRA`. -/
def lineHeightOf (c : LayoutCfg) : Int := (c.fontHeight : Int) + 4

/-- The line start `self.doc_container.x + 10`. -/
def leftMargin (c : LayoutCfg) : Int := c.container.x + 10

/-- Constant `max_line_width = self.doc_container.width - 20`. -/
def maxLineWidth (c : LayoutCfg) : Int := c.container.w - 20

/-- Measurement `token_width = font.size(token_text)[0] + cfg.TOKEN_PADDING`. -/
def tokenWidth (c : LayoutCfg) (text : String) : Int := (c.fontWidth text : Int) + 7

/-- The running cursor of the token scan in `render_document`. -/
structure ScanState where
  x : Int
  y : Int
  lineWidth : Int
  lineTokens : List TokenBox
  globalIdx : Nat
  boxes : List TokenBox
  deriving Repr

/-- The wrap branch `y += line_height; x = left; line_width = 0;
line_tokens = []` of the token loop. -/
def wrapLine (c : LayoutCfg) (st : ScanState) : ScanState :=
  { st with
    y := st.y + lineHeightOf c
    x := leftMargin c
    lineWidth := 0
    lineTokens := [] }

/-- Emitting the token box at the current cursor and advancing the
cursor by the token width plus 2 (the unconditional tail of the token
loop body). -/
def emitToken (c : LayoutCfg) (sentIdx tokIdx : Nat) (text : String)
    (st : ScanState) : ScanState :=
  let box : TokenBox :=
    { text := text, sentIdx := sentIdx, tokIdx := tokIdx, globalIdx := st.globalIdx,
      rect := ⟨st.x, st.y, tokenWidth c text, lineHeightOf c⟩,
      selected := decide (st.globalIdx ∈ c.selectedTokens) }
  { st with
    x := st.x + tokenWidth c text + 2
    lineWidth := st.lineWidth + tokenWidth c text + 2
    lineTokens := st.lineTokens ++ [box]
    globalIdx := st.globalIdx + 1
    boxes := st.boxes ++ [box] }

/-- One iteration of the token loop in `render_document`: falsy token
text is skipped but still consumes a global index; a token that would
overflow the line wraps — advance y by the line height and reset x —
unless the current line is empty (`and line_tokens`); then the box is
emitted and the cursor advances. -/
def placeToken (c : LayoutCfg) (sentIdx tokIdx : Nat) (text : String)
    (st : ScanState) : ScanState :=
  if text = "" then { st with globalIdx := st.globalIdx + 1 }
  else if maxLineWidth c < st.lineWidth + tokenWidth c text ∧ st.lineTokens ≠ [] then
    emitToken c sentIdx tokIdx text (wrapLine c st)
  else emitToken c sentIdx tokIdx text st

/-- Loop `for tok_idx, token_text in enumerate(sentence)`, carrying the local
index explicitly. -/
def placeTokens (c : LayoutCfg) (sentIdx : Nat) :
    Nat → List String → ScanState → ScanState
  | _, [], st => st
  | tokIdx, t :: ts, st =>
    placeTokens c sentIdx (tokIdx + 1) ts (placeToken c sentIdx tokIdx t st)

/-- The sentence loop of `render_document`: a `cfg.SENTENCE_SPACING` gap
and line reset before every sentence but the first, the token loop, then
the end-of-sentence line break and cursor reset. -/
def scanSentences (c : LayoutCfg) : Nat → List (List String) → ScanState → ScanState
  | _, [], st => st
  | sentIdx, sent :: rest, st =>
    let st1 := if 0 < sentIdx
      then { st with y := st.y + 15, lineTokens := [], lineWidth := 0 }
      else st
    let st2 := placeTokens c sentIdx 0 sent st1
    let st3 : ScanState := { st2 with
      y := st2.y + lineHeightOf c
      x := leftMargin c
      lineWidth := 0
      lineTokens := [] }
    scanSentences c (sentIdx + 1) rest st3

/-- The scan's initial cursor: `x = container.x + 10`,
`y = container.y - scroll + 10`. -/
def initScan (c : LayoutCfg) : ScanState :=
  { x := leftMargin c, y := c.container.y - c.scrollY + 10, lineWidth := 0,
    lineTokens := [], globalIdx := 0, boxes := [] }

/-- The full token scan over all sentences. -/
def renderTokens (c : LayoutCfg) (sentences : List (List String)) : ScanState :=
  scanSentences c 0 sentences (initScan c)

/-- The running-count loop of `EntityAnnotator.get_token_info`. -/
def getTokenInfoAux (g : Nat) : Nat → Nat → List (List String) → Option (Nat × Nat)
  | _, _, [] => none
  | sentIdx, total, sent :: rest =>
    if total ≤ g ∧ g < total + sent.length then some (sentIdx, g - total)
    else getTokenInfoAux g (sentIdx + 1) (total + sent.length) rest

/-- Method `EntityAnnotator.get_token_info`: global index to
`(sent_idx, tok_idx)`. -/
def getTokenInfo (sentences : List (List String)) (g : Nat) : Option (Nat × Nat) :=
  getTokenInfoAux g 0 0 sentences

/-- The document's total token count across all sentences. -/
def totalTokens (sentences : List (List String)) : Nat :=
  (sentences.map List.length).sum

/-- The token text at a global index (defaulting to "" out of range). -/
def textAt (sentences : List (List String)) (g : Nat) : String :=
  sentences.flatten.getD g ""

/-- Specification helper: the global indices, starting at `start`, of the
tokens of `l` whose text is nonempty — the indices the scan emits boxes
for. -/
def idxTok (start : Nat) : List String → List Nat
  | [] => []
  | t :: ts => (if t = "" then [] else [start]) ++ idxTok (start + 1) ts

/-- Specification predicate: every box placed away from the left margin
fits within 10 pixels of the container's right edge (the wrap rule's
guarantee for tokens that are not first on their line). -/
def BoxInv (c : LayoutCfg) (boxes : List TokenBox) : Prop :=
  ∀ b ∈ boxes, b.rect.x ≠ leftMargin c →
    b.rect.x + b.rect.w ≤ c.container.right - 10

/-- The cursor invariant maintained by the token scan: the x cursor sits
at the left margin plus the current line width, the line-token list is
empty exactly when the line width is zero, and all emitted boxes satisfy
`BoxInv`. -/
def ScanInv (c : LayoutCfg) (st : ScanState) : Prop :=
  st.x = leftMargin c + st.lineWidth ∧ (st.lineTokens = [] ↔ st.lineWidth = 0) ∧
  0 ≤ st.lineWidth ∧ BoxInv c st.boxes

/-- The duck-typed entity geometry: a bare rectangle for a single-line
entity, or the dict with a rectangle list for a multi-line one. -/
inductive EntityGeom where
  | single (r : Rect)
  | multi (rs : List Rect)
  deriving Repr, DecidableEq

/-- One entry of `self.rendered_entities` / `self.entity_elements`
(`normalize_type` on an already-string type is the identity, see
`normalizeType`, so the type field is carried over unchanged here). -/
structure EntityInfo where
  start : Nat
  stop : Nat
  ty : String
  text : String
  geom : EntityGeom
  selected : Bool
  deriving Repr, DecidableEq

/-- Insert into an ascending list, in front of the first element not
below `a`. -/
def insertSorted (le : α → α → Bool) (a : α) : List α → List α
  | [] => [a]
  | b :: bs => if le a b then a :: b :: bs else b :: insertSorted le a bs

/-- Insertion sort, standing in for Python `sorted`.  Both call sites
sort lists whose keys are pairwise distinct (row y values after `dedup`;
token x positions within one row strictly increase), so every correct
sort — in particular Python's stable sort — produces the same list. -/
def sortBy (le : α → α → Bool) : List α → List α
  | [] => []
  | a :: as => insertSorted le a (sortBy le as)

/-- The per-row rectangle of `_render_entity`: with the row's tokens
sorted by x, span from the first token's left edge to the last token's
right edge at the first token's vertical extent. -/
def rowRect (ts : List TokenBox) : Rect :=
  match ts with
  | [] => ⟨0, 0, 0, 0⟩
  | t :: rest =>
    let lastT := ((t :: rest).getLast?).getD t
    ⟨t.rect.x, t.rect.y, lastT.rect.right - t.rect.x, t.rect.bottom - t.rect.y⟩

/-- Method `EntityAnnotator._render_entity`: collect the boxes whose global
index falls in the inclusive span; none means the entity is skipped.
Group the boxes by row (`rect.y`), one tight rectangle per row in
ascending row order (`sorted(lines.keys())`), single- or multi-line
geometry by rectangle count. -/
def renderEntity (c : LayoutCfg) (boxes : List TokenBox) (ent : Entity) :
    Option EntityInfo :=
  let toks := boxes.filter
    (fun t => decide (ent.start ≤ t.globalIdx ∧ t.globalIdx ≤ ent.stop))
  match toks with
  | [] => none
  | _ =>
    let ys := sortBy (fun a b => decide (a ≤ b)) ((toks.map (fun t => t.rect.y)).dedup)
    let rects := ys.map (fun y =>
      rowRect (sortBy (fun a b => decide (a.rect.x ≤ b.rect.x))
        (toks.filter (fun t => t.rect.y == y))))
    let geom := match rects with
      | [r] => EntityGeom.single r
      | rs => EntityGeom.multi rs
    some { start := ent.start, stop := ent.stop, ty := ent.ty,
           text := String.intercalate " " (toks.map (·.text)),
           geom := geom,
           selected := decide ((ent.start, ent.stop) ∈ c.selectedEntities) }

/-- Dictionary `self.entity_elements`: a dict keyed by the span string, written in
render order, so a later duplicate span overwrites an earlier one.  The
model prepends each entry; the first hit of `lookupElem` is therefore the
last write, matching dict semantics. -/
def entityElems (infos : List EntityInfo) : List ((Nat × Nat) × EntityInfo) :=
  infos.foldl (fun acc info => ((info.start, info.stop), info) :: acc) []

/-- Dictionary lookup `self.entity_elements[key]`. -/
def lookupElem (elems : List ((Nat × Nat) × EntityInfo)) (k : Nat × Nat) :
    Option EntityInfo :=
  (elems.find? (fun p => decide (p.1 = k))).map (·.2)

/-- Python `min` over a nonempty Int list (0 on [], which callers avoid). -/
def intListMin : List Int → Int
  | [] => 0
  | x :: xs => xs.foldl min x

/-- Method `EntityAnnotator.get_entity_center`: the rectangle's center, or the
floor-average (`//`, hence `Int.fdiv`) of the per-row centers for a
multi-line entity. -/
def entityCenter : EntityGeom → Int × Int
  | .single r => (r.centerx, r.centery)
  | .multi rs =>
    (Int.fdiv ((rs.map Rect.centerx).sum) rs.length,
     Int.fdiv ((rs.map Rect.centery).sum) rs.length)

/-- Method `EntityAnnotator.get_entity_top`: the top edge, or the minimum of the
per-row tops for a multi-line entity. -/
def entityTop : EntityGeom → Int
  | .single r => r.y
  | .multi rs => intListMin (rs.map Rect.y)

/-- The label-placement block of `_render_relation` with
`label_margin = 30` (Python `//` is floor division, hence `Int.fdiv`;
`abs(...) // 4` has a nonnegative dividend, where truncated and floor
division agree). -/
def computeLabelPos (container : Rect) (srcC tgtC : Int × Int)
    (srcTop tgtTop : Int) : Int × Int :=
  let labelX := Int.fdiv (srcC.1 + tgtC.1) 2
  let verticalDiff := (srcC.2 - tgtC.2).natAbs
  let labelY :=
    if verticalDiff < 50 then min srcTop tgtTop - 20
    else min srcC.2 tgtC.2 + ((verticalDiff : Int) / 4) - 30
  let labelY := if labelY < container.y + 30 then min srcC.2 tgtC.2 + 20 else labelY
  let labelY := if container.bottom - 30 < labelY then container.bottom - 30 else labelY
  let labelX := if labelX < container.x + 30 then container.x + 30 else labelX
  let labelX := if container.right - 30 < labelX then container.right - 30 else labelX
  (labelX, labelY)

/-- One entry of `self.rendered_relations`. -/
structure RelationInfo where
  src : EntityInfo
  tgt : EntityInfo
  ty : String
  srcCenter : Int × Int
  tgtCenter : Int × Int
  labelX : Int
  labelY : Int
  deriving Repr, DecidableEq

/-- Method `EntityAnnotator._render_relation`: skip (by omission) when either
endpoint span key has no rendered entity; otherwise compute the two
centroid anchors and the bounds-checked label position. -/
def renderRelation (container : Rect) (elems : List ((Nat × Nat) × EntityInfo))
    (r : Relation) : Option RelationInfo :=
  match lookupElem elems (r.srcStart, r.srcEnd),
      lookupElem elems (r.tgtStart, r.tgtEnd) with
  | some se, some te =>
    let sc := entityCenter se.geom
    let tc := entityCenter te.geom
    let lp := computeLabelPos container sc tc (entityTop se.geom) (entityTop te.geom)
    some { src := se, tgt := te, ty := r.ty, srcCenter := sc, tgtCenter := tc,
           labelX := lp.1, labelY := lp.2 }
  | _, _ => none

/-- The rendering layer's full output. -/
structure RenderResult where
  boxes : List TokenBox
  entities : List EntityInfo
  elems : List ((Nat × Nat) × EntityInfo)
  relations : List RelationInfo
  finalGlobalIdx : Nat
  deriving Repr

/-- Method `EntityAnnotator.render_document` (geometry-producing part): empty
output on a document without sentences; else the token scan, the entity
pass over all `ner` buckets in order, and the relation pass over all
`relations` buckets in order (the `len(...) >= 3` / `>= 5` guards are
vacuous on well-formed records). -/
def renderDocument (c : LayoutCfg) (doc : Doc) : RenderResult :=
  if doc.sentences = [] then ⟨[], [], [], [], 0⟩
  else
    let scan := renderTokens c doc.sentences
    let ents := doc.ner.flatten.filterMap (renderEntity c scan.boxes)
    let elems := entityElems ents
    let rels := doc.relations.flatten.filterMap (renderRelation c.container elems)
    ⟨scan.boxes, ents, elems, rels, scan.globalIdx⟩

/-- The clamp at the top of `EntityAnnotator.draw_relation_label`, which
fixes the drawn label position inside the container with margins 40
(horizontal) and 20 (vertical). -/
def drawLabelPos (container : Rect) (p : Int × Int) : Int × Int :=
  (max (container.x + 40) (min p.1 (container.right - 40)),
   max (container.y + 20) (min p.2 (container.bottom - 20)))

/-- An application state with every UI field quiet, used as the base of
the concrete states below. -/
def baseState (doc : Doc) : AppState :=
  { doc := doc, selectedTokens := [], selectedEntityType := none,
    selectedEntities := [], relationSourceEntity := none,
    relationTargetEntity := none, selectedRelationType := none,
    undoStack := [], redoStack := [] }

/-- Concrete state for the `D`-key token-deletion check: two tokens, the
first selected, no entity selection. -/
def stC1 : AppState :=
  { baseState ⟨[["A", "B"]], [[]], [[]]⟩ with selectedTokens := [0] }

/-- Concrete state for the delete-all-relations undo check: one sentence
and one relation. -/
def stC2 : AppState :=
  baseState ⟨[["A"]], [[]], [[⟨0, 0, 0, 0, "R"⟩]]⟩

/-- Concrete state for the duplicate-span overwrite check: an entity with
span (0, 1) already exists, tokens 0-1 are selected with type "Y", and
the redo stack is nonempty. -/
def stC3 : AppState :=
  { baseState ⟨[["A", "B"]], [[⟨0, 1, "X"⟩]], [[]]⟩ with
    selectedTokens := [0, 1]
    selectedEntityType := some "Y"
    redoStack := [.addEntity ⟨9, 9, "Z"⟩] }

/-- Concrete state for the falsy-type cascade-delete check: the selected
entity's stored type is the empty string, and a relation references its
span. -/
def stC4 : AppState :=
  { baseState ⟨[["A", "B"]], [[⟨0, 0, ""⟩]], [[⟨0, 0, 1, 1, "R"⟩]]⟩ with
    selectedEntities := [(0, 0)] }

/-- Concrete state for the cascade-delete scenario of the spec: entities
(0,1,"X") and (2,2,"Y"), relation (0,1,2,2,"R"), entity (0,1) selected. -/
def stC4b : AppState :=
  { baseState ⟨[["A", "B", "C"]], [[⟨0, 1, "X"⟩, ⟨2, 2, "Y"⟩]],
      [[⟨0, 1, 2, 2, "R"⟩]]⟩ with
    selectedEntities := [(0, 1)] }

/-- Concrete state for the entity-creation scenario of the spec: one
sentence of three tokens, global indices 0-1 selected, type "X"
confirmed. -/
def stC5 : AppState :=
  { baseState ⟨[["A", "B", "C"]], [[]], [[]]⟩ with
    selectedTokens := [0, 1]
    selectedEntityType := some "X" }

/-- Concrete state for relation creation: source entity (0,0), target
entity (1,1), type "R" confirmed. -/
def stRel : AppState :=
  { baseState ⟨[["A", "B", "C"]], [[⟨0, 0, "X"⟩, ⟨1, 1, "Y"⟩]], [[]]⟩ with
    relationSourceEntity := some ⟨0, 0, "X"⟩
    relationTargetEntity := some ⟨1, 1, "Y"⟩
    selectedRelationType := some "R" }

/-- A concrete font-metrics/layout configuration: 10 pixels per
character, font height 16, a 800x1000 container at (0, 100), scrolled
down by 300 pixels. -/
def cfgC8 : LayoutCfg :=
  { fontWidth := fun s => 10 * s.length, fontHeight := 16,
    container := ⟨0, 100, 800, 1000⟩, scrollY := 300,
    selectedTokens := [], selectedEntities := [] }

/-- A document whose two entities sit on the first (scrolled-away) line,
with one relation between them. -/
def docC8 : Doc :=
  ⟨[["aa", "bb"]], [[⟨0, 0, "X"⟩, ⟨1, 1, "Y"⟩]], [[⟨0, 0, 1, 1, "R"⟩]]⟩

/-- The same layout configuration without scrolling, for the layout and
relation witnesses. -/
def cfgW : LayoutCfg :=
  { fontWidth := fun s => 10 * s.length, fontHeight := 16,
    container := ⟨0, 0, 100, 500⟩, scrollY := 0,
    selectedTokens := [], selectedEntities := [] }

/-- A document that word-wraps: line width 80, token widths 27, 37 and
47, so the third token wraps; an empty token and a second sentence
exercise index bookkeeping. -/
def docW : Doc :=
  ⟨[["aa", "bbb", "dddd", ""], ["c"]], [[]], [[]]⟩

/-- A document with one well-formed relation and one dangling relation
(its target span (5,5) has no entity). -/
def docW9 : Doc :=
  ⟨[["aa", "bb"]], [[⟨0, 0, "X"⟩, ⟨1, 1, "Y"⟩]],
    [[⟨0, 0, 1, 1, "R"⟩, ⟨0, 0, 5, 5, "S"⟩]]⟩

/-- A concrete mid-line scan state: the cursor after placing the token
"aa" from the initial cursor of `cfgW` (x = 39, line width 29, one token
on the line). -/
def stScan : ScanState := placeToken cfgW 0 0 "aa" (initScan cfgW)

/-- C10: `normalize_type` is total over strings and lists: a string comes
back unchanged, a nonempty list yields its first element, and the empty
list yields the string "Unknown". -/
theorem normalize_type_total :
    (∀ s : String, normalizeType (.str s) = .str s) ∧
    (∀ (x : String) (l : List String), normalizeType (.lst (x :: l)) = .str x) ∧
    normalizeType (.lst []) = .str "Unknown" :=
  ⟨fun _ => rfl, fun _ _ => rfl, rfl⟩

/-- C1: evaluating the code at the failing input.  Pressing `D` with
token 0 selected and no entity selection reaches
`delete_selected_tokens`, but that operation is a placeholder in
src/entity_annotator.py ("Token deletion not yet implemented"): it only
clears the selection, and the sentence keeps both tokens instead of
dropping the selected one. -/
theorem key_d_token_deletion_is_stub :
    (handleKeyD stC1).doc = stC1.doc ∧
    (handleKeyD stC1).selectedTokens = [] ∧
    stC1.selectedTokens = [0] ∧ stC1.selectedEntities = [] ∧
    (handleKeyD stC1).doc.sentences = [["A", "B"]] ∧
    (handleKeyD stC1).doc.sentences ≠ [["B"]] := by
  refine ⟨rfl, rfl, rfl, rfl, rfl, ?_⟩
  decide

/-- C2: evaluating the code at the failing input.  After
`delete_all_relations`, `undo` moves the `delete_all_relations` record
to the redo stack but has no branch restoring the snapshot it carries:
the document keeps its emptied relations buckets instead of recovering
the original relation. -/
theorem undo_delete_all_relations_not_restored :
    stC2.doc.relations = [[⟨0, 0, 0, 0, "R"⟩]] ∧
    (undo (deleteAllRelations stC2)).doc.relations = [[]] ∧
    (undo (deleteAllRelations stC2)).undoStack = [] ∧
    (undo (deleteAllRelations stC2)).redoStack
      = [.deleteAllRelations [[⟨0, 0, 0, 0, "R"⟩]]] ∧
    (undo (deleteAllRelations stC2)).doc ≠ stC2.doc := by
  refine ⟨rfl, rfl, rfl, rfl, ?_⟩
  decide

/-- C3 counterexample: confirming type "Y" on the already-annotated span
(0, 1) mutates the document (the entity's type is overwritten in place)
yet pushes nothing onto the undo stack and leaves the redo stack
uncleared, refuting the claim that every entity/relation-mutating
transition journals itself. -/
theorem create_entity_overwrite_skips_journal :
    (createNewEntity stC3).doc.ner = [[⟨0, 1, "Y"⟩]] ∧
    (createNewEntity stC3).doc.ner ≠ stC3.doc.ner ∧
    (createNewEntity stC3).undoStack = [] ∧
    (createNewEntity stC3).redoStack = [.addEntity ⟨9, 9, "Z"⟩] := by
  refine ⟨rfl, ?_, rfl, rfl⟩
  decide

/-- C4 counterexample: when the selected entity's stored type is the
falsy empty string, `delete_selected_entity` returns early: the entity
survives and the relation referencing its span (0, 0) is still in the
document, refuting the unconditional cascade-completeness claim. -/
theorem delete_entity_falsy_type_noop :
    deleteSelectedEntity stC4 = stC4 ∧
    stC4.selectedEntities = [(0, 0)] ∧
    matchesSpan 0 0 ⟨0, 0, 1, 1, "R"⟩ ∧
    ⟨0, 0, 1, 1, "R"⟩ ∈ (deleteSelectedEntity stC4).doc.relations.flatten ∧
    (⟨0, 0, ""⟩ : Entity) ∈ (deleteSelectedEntity stC4).doc.ner.flatten := by
  refine ⟨?_, rfl, ?_, ?_, ?_⟩ <;> decide

/-- C3 (amended): the append case of addEntity, the append case of
addRelation, the acting case of deleteEntityCascade, and the acting case
of delete-all-relations each push their inverse-capable record onto the
undo stack and clear the redo stack; the duplicate-span and
duplicate-4-tuple overwrite cases return early and journal nothing (see
the counterexample). -/
theorem mutations_journal_and_clear_redo :
    (∀ (st : AppState) (ty : String), st.selectedEntityType = some ty →
      st.selectedTokens ≠ [] → ty ≠ "" →
      overwriteEntityBuckets (listMin st.selectedTokens) (listMax st.selectedTokens)
        ty st.doc.ner = none →
      (createNewEntity st).undoStack = pushBounded MAX_UNDO_HISTORY
        (.addEntity ⟨listMin st.selectedTokens, listMax st.selectedTokens, ty⟩)
        st.undoStack ∧
      (createNewEntity st).redoStack = []) ∧
    (∀ (st : AppState) (src tgt : Entity) (ty : String),
      st.relationSourceEntity = some src → st.relationTargetEntity = some tgt →
      st.selectedRelationType = some ty → ty ≠ "" →
      overwriteRelationBuckets ⟨src.start, src.stop, tgt.start, tgt.stop, ty⟩
        st.doc.relations = none →
      (createNewRelation st).undoStack = pushBounded MAX_UNDO_HISTORY
        (.addRelation ⟨src.start, src.stop, tgt.start, tgt.stop, ty⟩) st.undoStack ∧
      (createNewRelation st).redoStack = []) ∧
    (∀ (st : AppState) (s e : Nat) (rest : List (Nat × Nat)) (ty : String),
      st.selectedEntities = (s, e) :: rest →
      findEntityType s e st.doc.ner = some ty →
      (deleteSelectedEntity st).undoStack = pushBounded MAX_UNDO_HISTORY
        (.deleteEntity ⟨s, e, ty⟩ (cascadeRemoved s e st.doc.relations)) st.undoStack ∧
      (deleteSelectedEntity st).redoStack = []) ∧
    (∀ st : AppState, st.doc.relations ≠ [] →
      (deleteAllRelations st).undoStack = pushBounded MAX_UNDO_HISTORY
        (.deleteAllRelations st.doc.relations) st.undoStack ∧
      (deleteAllRelations st).redoStack = []) := by
  refine ⟨?_, ?_, ?_, ?_⟩
  · intro st ty hty hsel hne hover
    simp [createNewEntity, hty, hsel, hne, hover]
  · intro st src tgt ty hsrc htgt hty hne hover
    simp [createNewRelation, hsrc, htgt, hty, hne, hover]
  · intro st s e rest ty hsel hty
    simp [deleteSelectedEntity, hsel, hty]
  · intro st hne
    simp [deleteAllRelations, hne]

/-- Witness: the amended C3 theorem applied at four concrete states, one
per mutating operation. -/
theorem mutations_journal_witness :
    ((createNewEntity stC5).undoStack = pushBounded MAX_UNDO_HISTORY
        (.addEntity ⟨listMin stC5.selectedTokens, listMax stC5.selectedTokens, "X"⟩)
        stC5.undoStack ∧
      (createNewEntity stC5).redoStack = []) ∧
    ((createNewRelation stRel).undoStack = pushBounded MAX_UNDO_HISTORY
        (.addRelation ⟨0, 0, 1, 1, "R"⟩) stRel.undoStack ∧
      (createNewRelation stRel).redoStack = []) ∧
    ((deleteSelectedEntity stC4b).undoStack = pushBounded MAX_UNDO_HISTORY
        (.deleteEntity ⟨0, 1, "X"⟩ (cascadeRemoved 0 1 stC4b.doc.relations))
        stC4b.undoStack ∧
      (deleteSelectedEntity stC4b).redoStack = []) ∧
    ((deleteAllRelations stC2).undoStack = pushBounded MAX_UNDO_HISTORY
        (.deleteAllRelations stC2.doc.relations) stC2.undoStack ∧
      (deleteAllRelations stC2).redoStack = []) :=
  ⟨mutations_journal_and_clear_redo.1 stC5 "X" rfl (by decide) (by decide) (by decide),
   mutations_journal_and_clear_redo.2.1 stRel ⟨0, 0, "X"⟩ ⟨1, 1, "Y"⟩ "R"
     rfl rfl rfl (by decide) (by decide),
   mutations_journal_and_clear_redo.2.2.1 stC4b 0 1 [] "X" rfl (by decide),
   mutations_journal_and_clear_redo.2.2.2 stC2 (by decide)⟩

/-- Removing the first same-span entity of a bucket leaves no same-span
entity, provided the bucket held at most one. -/
theorem removeFirstEntity_no_match (s e : Nat) :
    ∀ b : List Entity,
      (b.filter (fun ent => decide (ent.start = s ∧ ent.stop = e))).length ≤ 1 →
      ∀ ent ∈ removeFirstEntity s e b, ¬(ent.start = s ∧ ent.stop = e) := by
  intro b
  induction b with
  | nil => intro _ ent h; simp [removeFirstEntity] at h
  | cons x xs ih =>
    intro hlen ent hmem hent
    by_cases hx : x.start = s ∧ x.stop = e
    · rw [removeFirstEntity, if_pos hx] at hmem
      have hfx : (List.filter (fun ent => decide (ent.start = s ∧ ent.stop = e))
          (x :: xs)).length = (List.filter (fun ent =>
            decide (ent.start = s ∧ ent.stop = e)) xs).length + 1 := by
        simp [List.filter_cons, hx]
      have hxs : ent ∈ List.filter
          (fun ent => decide (ent.start = s ∧ ent.stop = e)) xs := by
        simp [List.mem_filter, hmem, hent]
      have := List.length_pos.mpr (List.ne_nil_of_mem hxs)
      omega
    · rw [removeFirstEntity, if_neg hx] at hmem
      rcases List.mem_cons.mp hmem with h | h
      · exact hx (h ▸ hent)
      · have heq : List.filter (fun ent => decide (ent.start = s ∧ ent.stop = e))
            (x :: xs) = List.filter (fun ent =>
              decide (ent.start = s ∧ ent.stop = e)) xs := by
          simp [List.filter_cons, hx]
        rw [heq] at hlen
        exact ih hlen ent h hent

/-- C4 (amended): when the selected entity's span resolves to a truthy
stored type (the code no-ops on a falsy one, see the counterexample) and
spans are unique per bucket, the cascade delete removes every relation
whose source or target span matches, removes the entity from every
bucket, and pushes an undo record carrying the entity together with
exactly the relations that were cascade-deleted. -/
theorem delete_entity_cascade_complete :
    ∀ (st : AppState) (s e : Nat) (rest : List (Nat × Nat)) (ty : String),
      st.selectedEntities = (s, e) :: rest →
      findEntityType s e st.doc.ner = some ty →
      (∀ b ∈ st.doc.ner,
        (b.filter (fun ent => decide (ent.start = s ∧ ent.stop = e))).length ≤ 1) →
      (∀ b ∈ (deleteSelectedEntity st).doc.relations, ∀ r ∈ b, ¬ matchesSpan s e r) ∧
      (∀ b ∈ (deleteSelectedEntity st).doc.ner, ∀ ent ∈ b,
        ¬(ent.start = s ∧ ent.stop = e)) ∧
      (∀ r : Relation, r ∈ cascadeRemoved s e st.doc.relations ↔
        r ∈ st.doc.relations.flatten ∧ matchesSpan s e r) ∧
      (deleteSelectedEntity st).undoStack = pushBounded MAX_UNDO_HISTORY
        (.deleteEntity ⟨s, e, ty⟩ (cascadeRemoved s e st.doc.relations))
        st.undoStack := by
  intro st s e rest ty hsel hty huniq
  have hst : deleteSelectedEntity st = { st with
      doc := { st.doc with
        ner := st.doc.ner.map (removeFirstEntity s e)
        relations := st.doc.relations.map
          (fun b => b.filter (fun r => !(decide (matchesSpan s e r)))) }
      undoStack := pushBounded MAX_UNDO_HISTORY
        (.deleteEntity ⟨s, e, ty⟩ (cascadeRemoved s e st.doc.relations)) st.undoStack
      redoStack := []
      selectedEntities := [] } := by
    simp [deleteSelectedEntity, hsel, hty]
  refine ⟨?_, ?_, ?_, ?_⟩
  · rw [hst]
    intro b hb r hr
    simp only [List.mem_map] at hb
    obtain ⟨b0, _, rfl⟩ := hb
    simp [List.mem_filter] at hr
    exact hr.2
  · rw [hst]
    intro b hb ent hent
    simp only [List.mem_map] at hb
    obtain ⟨b0, hb0, rfl⟩ := hb
    exact removeFirstEntity_no_match s e b0 (huniq b0 hb0) ent hent
  · intro r
    simp only [cascadeRemoved, List.mem_flatten, List.mem_map, List.mem_filter]
    constructor
    · rintro ⟨l, ⟨b0, hb0, rfl⟩, hmem⟩
      rcases List.mem_filter.mp hmem with ⟨hrb, hr⟩
      exact ⟨⟨b0, hb0, hrb⟩, of_decide_eq_true hr⟩
    · rintro ⟨⟨b0, hb0, hrb⟩, hr⟩
      exact ⟨_, ⟨b0, hb0, rfl⟩, List.mem_filter.mpr ⟨hrb, decide_eq_true hr⟩⟩
  · rw [hst]

/-- Witness: the amended C4 theorem at the cascade-delete scenario state
(entities (0,1,"X") and (2,2,"Y"), relation (0,1,2,2,"R")). -/
theorem delete_entity_cascade_witness :
    (∀ b ∈ (deleteSelectedEntity stC4b).doc.relations, ∀ r ∈ b,
      ¬ matchesSpan 0 1 r) ∧
    (∀ b ∈ (deleteSelectedEntity stC4b).doc.ner, ∀ ent ∈ b,
      ¬(ent.start = 0 ∧ ent.stop = 1)) ∧
    (∀ r : Relation, r ∈ cascadeRemoved 0 1 stC4b.doc.relations ↔
      r ∈ stC4b.doc.relations.flatten ∧ matchesSpan 0 1 r) ∧
    (deleteSelectedEntity stC4b).undoStack = pushBounded MAX_UNDO_HISTORY
      (.deleteEntity ⟨0, 1, "X"⟩ (cascadeRemoved 0 1 stC4b.doc.relations))
      stC4b.undoStack :=
  delete_entity_cascade_complete stC4b 0 1 [] "X" rfl (by decide) (by decide)

/-- Overwriting the first same-span entity preserves the list length. -/
theorem replaceFirstMatch_length (s e : Nat) (ty : String) :
    ∀ l l', replaceFirstMatch s e ty l = some l' → l'.length = l.length := by
  intro l
  induction l with
  | nil => intro l' h; simp [replaceFirstMatch] at h
  | cons x xs ih =>
    intro l' h
    rw [replaceFirstMatch] at h
    by_cases hx : x.start = s ∧ x.stop = e
    · rw [if_pos hx] at h
      cases h
      simp
    · rw [if_neg hx] at h
      rcases Option.map_eq_some'.mp h with ⟨xs', hxs', rfl⟩
      simp [ih xs' hxs']

/-- The duplicate-span scan fails exactly when no entity in the list has
the span. -/
theorem replaceFirstMatch_none_iff (s e : Nat) (ty : String) :
    ∀ l, replaceFirstMatch s e ty l = none ↔
      ∀ x ∈ l, ¬(x.start = s ∧ x.stop = e) := by
  intro l
  induction l with
  | nil => simp [replaceFirstMatch]
  | cons x xs ih =>
    rw [replaceFirstMatch]
    by_cases hx : x.start = s ∧ x.stop = e
    · simp [if_pos hx, hx]
    · simp only [if_neg hx, Option.map_eq_none', ih]
      constructor
      · intro h y hy
        rcases List.mem_cons.mp hy with rfl | hy
        · exact hx
        · exact h y hy
      · intro h y hy
        exact h y (List.mem_cons_of_mem x hy)

/-- A successful scan of a prefix succeeds on the whole list. -/
theorem replaceFirstMatch_append_left (s e : Nat) (ty : String) :
    ∀ l m l', replaceFirstMatch s e ty l = some l' →
      replaceFirstMatch s e ty (l ++ m) = some (l' ++ m) := by
  intro l
  induction l with
  | nil => intro m l' h; simp [replaceFirstMatch] at h
  | cons x xs ih =>
    intro m l' h
    rw [replaceFirstMatch] at h
    rw [List.cons_append, replaceFirstMatch]
    by_cases hx : x.start = s ∧ x.stop = e
    · rw [if_pos hx] at h ⊢
      cases h
      simp
    · rw [if_neg hx] at h ⊢
      rcases Option.map_eq_some'.mp h with ⟨xs', hxs', rfl⟩
      simp [ih m xs' hxs']

/-- A failed scan of a prefix delegates to the suffix. -/
theorem replaceFirstMatch_append_right (s e : Nat) (ty : String) :
    ∀ l m, replaceFirstMatch s e ty l = none →
      replaceFirstMatch s e ty (l ++ m)
        = (replaceFirstMatch s e ty m).map (l ++ ·) := by
  intro l
  induction l with
  | nil =>
    intro m _
    simp
  | cons x xs ih =>
    intro m h
    rw [replaceFirstMatch] at h
    rw [List.cons_append, replaceFirstMatch]
    by_cases hx : x.start = s ∧ x.stop = e
    · rw [if_pos hx] at h; cases h
    · rw [if_neg hx] at h ⊢
      rw [ih m (Option.map_eq_none'.mp h)]
      cases replaceFirstMatch s e ty m <;> simp

/-- The scan replaces exactly the first matching element. -/
theorem replaceFirstMatch_decomp (s e : Nat) (ty : String)
    (l₁ l₂ : List Entity) (ent : Entity)
    (h₁ : ∀ x ∈ l₁, ¬(x.start = s ∧ x.stop = e))
    (hs : ent.start = s) (he : ent.stop = e) :
    replaceFirstMatch s e ty (l₁ ++ ent :: l₂)
      = some (l₁ ++ { ent with ty := ty } :: l₂) := by
  induction l₁ with
  | nil =>
    rw [List.nil_append, replaceFirstMatch,
      if_pos (show ent.start = s ∧ ent.stop = e from ⟨hs, he⟩)]
    rw [List.nil_append]
  | cons x xs ih =>
    have hx : ¬(x.start = s ∧ x.stop = e) := h₁ x (by simp)
    rw [List.cons_append, replaceFirstMatch, if_neg hx,
      ih (fun y hy => h₁ y (List.mem_cons_of_mem x hy))]
    simp

/-- The bucket-by-bucket scan agrees with the scan of the flattened
entity list. -/
theorem overwriteEntityBuckets_flatten (s e : Nat) (ty : String) :
    ∀ bs bs', overwriteEntityBuckets s e ty bs = some bs' →
      replaceFirstMatch s e ty bs.flatten = some bs'.flatten := by
  intro bs
  induction bs with
  | nil => intro bs' h; simp [overwriteEntityBuckets] at h
  | cons b rest ih =>
    intro bs' h
    rw [overwriteEntityBuckets] at h
    cases hb : replaceFirstMatch s e ty b with
    | some b' =>
      rw [hb] at h
      cases h
      rw [List.flatten_cons, List.flatten_cons]
      exact replaceFirstMatch_append_left s e ty b rest.flatten b' hb
    | none =>
      rw [hb] at h
      rcases Option.map_eq_some'.mp h with ⟨rest', hrest', rfl⟩
      rw [List.flatten_cons, List.flatten_cons,
        replaceFirstMatch_append_right s e ty b rest.flatten hb, ih rest' hrest']
      rfl

/-- The bucket-by-bucket scan fails exactly when no bucket holds a
same-span entity. -/
theorem overwriteEntityBuckets_none_iff (s e : Nat) (ty : String) :
    ∀ bs, overwriteEntityBuckets s e ty bs = none ↔
      ∀ x ∈ bs.flatten, ¬(x.start = s ∧ x.stop = e) := by
  intro bs
  induction bs with
  | nil => simp [overwriteEntityBuckets]
  | cons b rest ih =>
    rw [overwriteEntityBuckets]
    cases hb : replaceFirstMatch s e ty b with
    | some b' =>
      simp only [List.flatten_cons]
      constructor
      · intro h; cases h
      · intro h
        have : replaceFirstMatch s e ty b = none :=
          (replaceFirstMatch_none_iff s e ty b).mpr
            (fun x hx => h x (List.mem_append_left _ hx))
        rw [hb] at this; cases this
    | none =>
      simp only [Option.map_eq_none', ih, List.flatten_cons, List.mem_append]
      have hbnone := (replaceFirstMatch_none_iff s e ty b).mp hb
      constructor
      · intro h x hx
        rcases hx with hx | hx
        · exact hbnone x hx
        · exact h x hx
      · intro h x hx
        exact h x (Or.inr hx)

/-- The bucket-by-bucket scan preserves every bucket's length: no entity
is appended in the overwrite case. -/
theorem overwriteEntityBuckets_lengths (s e : Nat) (ty : String) :
    ∀ bs bs', overwriteEntityBuckets s e ty bs = some bs' →
      bs'.map List.length = bs.map List.length := by
  intro bs
  induction bs with
  | nil => intro bs' h; simp [overwriteEntityBuckets] at h
  | cons b rest ih =>
    intro bs' h
    rw [overwriteEntityBuckets] at h
    cases hb : replaceFirstMatch s e ty b with
    | some b' =>
      rw [hb] at h
      cases h
      simp [replaceFirstMatch_length s e ty b b' hb]
    | none =>
      rw [hb] at h
      rcases Option.map_eq_some'.mp h with ⟨rest', hrest', rfl⟩
      simp [ih rest' hrest']

/-- C5: confirming a type for the selected token range.  If an entity
with span (min, max) of the selected global indices already exists in
any ner bucket, the first such entity's type field is overwritten in
place and no bucket changes length; otherwise the ner bucket list is
padded with empty buckets up to the sentence count and the new triple is
appended to bucket 0. -/
theorem create_entity_spec :
    ∀ (st : AppState) (ty : String) (s e : Nat),
      st.selectedEntityType = some ty → st.selectedTokens ≠ [] → ty ≠ "" →
      s = listMin st.selectedTokens → e = listMax st.selectedTokens →
      ((∀ (l₁ l₂ : List Entity) (ent : Entity),
          st.doc.ner.flatten = l₁ ++ ent :: l₂ →
          (∀ x ∈ l₁, ¬(x.start = s ∧ x.stop = e)) →
          ent.start = s → ent.stop = e →
          (createNewEntity st).doc.ner.flatten
            = l₁ ++ { ent with ty := ty } :: l₂ ∧
          (createNewEntity st).doc.ner.map List.length
            = st.doc.ner.map List.length) ∧
       ((∀ x ∈ st.doc.ner.flatten, ¬(x.start = s ∧ x.stop = e)) →
          (createNewEntity st).doc.ner
            = appendBucket0 ⟨s, e, ty⟩ (padTo st.doc.sentences.length st.doc.ner))) := by
  intro st ty s e hty hsel hne hs he
  subst hs; subst he
  constructor
  · intro l₁ l₂ ent hflat h₁ hes hee
    cases hover : overwriteEntityBuckets (listMin st.selectedTokens)
        (listMax st.selectedTokens) ty st.doc.ner with
    | none =>
      exfalso
      have hno := (overwriteEntityBuckets_none_iff _ _ ty st.doc.ner).mp hover
      exact hno ent (by rw [hflat]; simp) ⟨hes, hee⟩
    | some ner' =>
      have hres : (createNewEntity st).doc.ner = ner' := by
        simp [createNewEntity, hty, hsel, hne, hover]
      have hrepl := overwriteEntityBuckets_flatten _ _ ty st.doc.ner ner' hover
      rw [hflat, replaceFirstMatch_decomp _ _ ty l₁ l₂ ent h₁ hes hee] at hrepl
      refine ⟨?_, ?_⟩
      · rw [hres]
        exact (Option.some_injective _ hrepl).symm
      · rw [hres]
        exact overwriteEntityBuckets_lengths _ _ ty st.doc.ner ner' hover
  · intro hno
    have hover : overwriteEntityBuckets (listMin st.selectedTokens)
        (listMax st.selectedTokens) ty st.doc.ner = none :=
      (overwriteEntityBuckets_none_iff _ _ ty st.doc.ner).mpr hno
    simp [createNewEntity, hty, hsel, hne, hover]

/-- Witness: the amended C5 theorem at the entity-creation scenario
state; the fresh-span branch yields exactly `ner == [[[0, 1, "X"]]]`. -/
theorem create_entity_witness :
    (createNewEntity stC5).doc.ner
      = appendBucket0 ⟨0, 1, "X"⟩ (padTo stC5.doc.sentences.length stC5.doc.ner) ∧
    (createNewEntity stC5).doc.ner = [[⟨0, 1, "X"⟩]] := by
  have h := (create_entity_spec stC5 "X" 0 1 rfl (by decide) (by decide)
    (by decide) (by decide)).2 (by decide)
  exact ⟨h, h.trans (by decide)⟩

/-- Every token consumes exactly one global index, visible or not. -/
theorem placeToken_globalIdx (c : LayoutCfg) (si ti : Nat) (t : String)
    (st : ScanState) :
    (placeToken c si ti t st).globalIdx = st.globalIdx + 1 := by
  rw [placeToken]
  split
  · rfl
  · split <;> rfl

/-- The emitted global-index list grows by the current index exactly when
the token text is nonempty. -/
theorem placeToken_boxes_gi (c : LayoutCfg) (si ti : Nat) (t : String)
    (st : ScanState) :
    (placeToken c si ti t st).boxes.map (fun b => b.globalIdx)
      = st.boxes.map (fun b => b.globalIdx)
        ++ (if t = "" then [] else [st.globalIdx]) := by
  by_cases ht : t = ""
  · rw [placeToken, if_pos ht, if_pos ht]
    simp
  · rw [placeToken, if_neg ht, if_neg ht]
    split <;> simp [emitToken, wrapLine]

/-- The token loop consumes one global index per token of the
sentence. -/
theorem placeTokens_globalIdx (c : LayoutCfg) (si : Nat) :
    ∀ (ts : List String) (ti : Nat) (st : ScanState),
      (placeTokens c si ti ts st).globalIdx = st.globalIdx + ts.length := by
  intro ts
  induction ts with
  | nil => intro ti st; rfl
  | cons t ts ih =>
    intro ti st
    rw [placeTokens, ih, placeToken_globalIdx]
    simp
    omega

/-- The token loop appends exactly the per-sentence nonempty-token
indices. -/
theorem placeTokens_boxes_gi (c : LayoutCfg) (si : Nat) :
    ∀ (ts : List String) (ti : Nat) (st : ScanState),
      (placeTokens c si ti ts st).boxes.map (fun b => b.globalIdx)
        = st.boxes.map (fun b => b.globalIdx) ++ idxTok st.globalIdx ts := by
  intro ts
  induction ts with
  | nil => intro ti st; simp [placeTokens, idxTok]
  | cons t ts ih =>
    intro ti st
    rw [placeTokens, ih, placeToken_boxes_gi, placeToken_globalIdx, idxTok,
      List.append_assoc]

/-- Helper `idxTok` distributes over appended token lists, shifting the start
index. -/
theorem idxTok_append (a b : List String) :
    ∀ start, idxTok start (a ++ b) = idxTok start a ++ idxTok (start + a.length) b := by
  induction a with
  | nil => intro start; simp [idxTok]
  | cons t ts ih =>
    intro start
    rw [List.cons_append, idxTok, idxTok, ih (start + 1), List.append_assoc]
    have : start + 1 + ts.length = start + (t :: ts).length := by
      simp; omega
    rw [this]

/-- The sentence loop consumes one global index per document token. -/
theorem scanSentences_globalIdx (c : LayoutCfg) :
    ∀ (ss : List (List String)) (si : Nat) (st : ScanState),
      (scanSentences c si ss st).globalIdx = st.globalIdx + totalTokens ss := by
  intro ss
  induction ss with
  | nil => intro si st; simp [scanSentences, totalTokens]
  | cons sent rest ih =>
    intro si st
    rw [scanSentences]
    rw [ih]
    show (placeTokens c si 0 sent _).globalIdx + totalTokens rest = _
    rw [placeTokens_globalIdx]
    have : totalTokens (sent :: rest) = sent.length + totalTokens rest := by
      simp [totalTokens]
    by_cases hsi : 0 < si <;> simp [hsi] <;> omega

/-- The sentence loop emits exactly the nonempty-token global indices of
the flattened document. -/
theorem scanSentences_boxes_gi (c : LayoutCfg) :
    ∀ (ss : List (List String)) (si : Nat) (st : ScanState),
      (scanSentences c si ss st).boxes.map (fun b => b.globalIdx)
        = st.boxes.map (fun b => b.globalIdx) ++ idxTok st.globalIdx ss.flatten := by
  intro ss
  induction ss with
  | nil => intro si st; simp [scanSentences, idxTok]
  | cons sent rest ih =>
    intro si st
    rw [scanSentences]
    rw [ih]
    show (placeTokens c si 0 sent _).boxes.map _ ++
        idxTok (placeTokens c si 0 sent _).globalIdx rest.flatten = _
    rw [placeTokens_boxes_gi, placeTokens_globalIdx, List.flatten_cons,
      idxTok_append, List.append_assoc]
    by_cases hsi : 0 < si <;> simp [hsi]

/-- The full scan: final counter and emitted index list. -/
theorem renderTokens_gi (c : LayoutCfg) (sentences : List (List String)) :
    (renderTokens c sentences).globalIdx = totalTokens sentences ∧
    (renderTokens c sentences).boxes.map (fun b => b.globalIdx)
      = idxTok 0 sentences.flatten := by
  constructor
  · rw [renderTokens, scanSentences_globalIdx]
    simp [initScan]
  · rw [renderTokens, scanSentences_boxes_gi]
    simp [initScan]

/-- Membership in the emitted index list: exactly the in-range indices
whose token text is nonempty. -/
theorem idxTok_mem :
    ∀ (l : List String) (start g : Nat),
      g ∈ idxTok start l ↔
        start ≤ g ∧ g - start < l.length ∧ l.getD (g - start) "" ≠ "" := by
  intro l
  induction l with
  | nil => intro start g; simp [idxTok]
  | cons t ts ih =>
    intro start g
    rw [idxTok]
    constructor
    · intro hmem
      rcases List.mem_append.mp hmem with h | h
      · by_cases ht : t = ""
        · rw [if_pos ht] at h
          cases h
        · rw [if_neg ht] at h
          rcases List.mem_singleton.mp h with rfl
          refine ⟨le_refl _, by simp, ?_⟩
          rw [Nat.sub_self, List.getD_cons_zero]
          exact ht
      · obtain ⟨h1, h2, h3⟩ := (ih (start + 1) g).mp h
        refine ⟨by omega, by simp; omega, ?_⟩
        have hg : g - start = (g - (start + 1)) + 1 := by omega
        rw [hg, List.getD_cons_succ]
        exact h3
    · rintro ⟨h1, h2, h3⟩
      rcases Nat.eq_or_lt_of_le h1 with heq | hlt
      · apply List.mem_append.mpr
        left
        have ht : ¬ t = "" := by
          intro ht
          rw [← heq, Nat.sub_self, List.getD_cons_zero] at h3
          exact h3 ht
        rw [if_neg ht]
        exact List.mem_singleton.mpr heq.symm
      · apply List.mem_append.mpr
        right
        apply (ih (start + 1) g).mpr
        have hg : g - start = (g - (start + 1)) + 1 := by omega
        rw [hg, List.getD_cons_succ] at h3
        simp at h2
        exact ⟨by omega, by omega, h3⟩

/-- The emitted indices are bounded below by the start and strictly
increasing: no duplicates. -/
theorem idxTok_chain :
    ∀ (l : List String) (start : Nat),
      (∀ g ∈ idxTok start l, start ≤ g) ∧
      List.Chain' (· < ·) (idxTok start l) := by
  intro l
  induction l with
  | nil => intro start; simp [idxTok]
  | cons t ts ih =>
    intro start
    rw [idxTok]
    obtain ⟨hb, hc⟩ := ih (start + 1)
    by_cases ht : t = ""
    · rw [if_pos ht]
      refine ⟨fun g hg => ?_, by simpa using hc⟩
      have := hb g (by simpa using hg)
      omega
    · rw [if_neg ht, List.singleton_append]
      constructor
      · intro g hg
        rcases List.mem_cons.mp hg with rfl | h
        · exact le_refl _
        · have := hb g h
          omega
      · rw [List.chain'_cons']
        refine ⟨?_, hc⟩
        intro b hhead
        have hmem : b ∈ idxTok (start + 1) ts := List.mem_of_mem_head? hhead
        have := hb b hmem
        omega

/-- One emitted box per nonempty-text token. -/
theorem idxTok_length :
    ∀ (l : List String) (start : Nat),
      (idxTok start l).length = (l.filter (fun t => !(t == ""))).length := by
  intro l
  induction l with
  | nil => intro start; simp [idxTok]
  | cons t ts ih =>
    intro start
    rw [idxTok, List.filter_cons]
    by_cases ht : t = "" <;> simp [ht, ih]

/-- The running-count loop of `get_token_info` resolves every in-range
global index to the sentence holding it and the local offset within. -/
theorem getTokenInfoAux_spec (g : Nat) :
    ∀ (ss : List (List String)) (si total : Nat),
      total ≤ g → g < total + totalTokens ss →
      ∃ s t, getTokenInfoAux g si total ss = some (si + s, t) ∧
        t < (ss.getD s []).length ∧ total + totalTokens (ss.take s) + t = g := by
  intro ss
  induction ss with
  | nil =>
    intro si total h1 h2
    exfalso
    simp [totalTokens] at h2
    omega
  | cons sent rest ih =>
    intro si total h1 h2
    rw [getTokenInfoAux]
    by_cases hc : total ≤ g ∧ g < total + sent.length
    · rw [if_pos hc]
      refine ⟨0, g - total, by simp, ?_, ?_⟩
      · simp
        omega
      · simp [totalTokens]
        omega
    · rw [if_neg hc]
      have hge : total + sent.length ≤ g := by
        rcases Decidable.not_and_iff_or_not.mp hc with h | h <;> omega
      have htt : totalTokens (sent :: rest) = sent.length + totalTokens rest := by
        simp [totalTokens]
      obtain ⟨s, t, haux, hlen, hsum⟩ := ih (si + 1) (total + sent.length) hge
        (by omega)
      refine ⟨s + 1, t, ?_, by simpa using hlen, ?_⟩
      · rw [haux]
        have : si + 1 + s = si + (s + 1) := by omega
        rw [this]
      · have : totalTokens (List.take (s + 1) (sent :: rest))
            = sent.length + totalTokens (rest.take s) := by
          simp [totalTokens]
        omega

/-- C7: a full token scan assigns global indices 0..totalTokenCount-1
with no gaps or duplicates: the final counter equals the token count, a
box is emitted exactly for the in-range indices with nonempty token text
(an empty-text token consumes its index but produces no box), the
emitted indices are strictly increasing, and `get_token_info` inverts
the running count for every in-range global index. -/
theorem global_index_continuity (c : LayoutCfg) (sentences : List (List String)) :
    (renderTokens c sentences).globalIdx = totalTokens sentences ∧
    (∀ g, g ∈ (renderTokens c sentences).boxes.map (fun b => b.globalIdx) ↔
      g < totalTokens sentences ∧ textAt sentences g ≠ "") ∧
    List.Chain' (· < ·)
      ((renderTokens c sentences).boxes.map (fun b => b.globalIdx)) ∧
    (∀ g, g < totalTokens sentences →
      ∃ s t, getTokenInfo sentences g = some (s, t) ∧
        t < (sentences.getD s []).length ∧
        totalTokens (sentences.take s) + t = g) := by
  obtain ⟨h1, h2⟩ := renderTokens_gi c sentences
  have hflatlen : sentences.flatten.length = totalTokens sentences := by
    simp [totalTokens]
  refine ⟨h1, ?_, ?_, ?_⟩
  · intro g
    rw [h2, idxTok_mem]
    simp [textAt, hflatlen]
  · rw [h2]
    exact (idxTok_chain sentences.flatten 0).2
  · intro g hg
    obtain ⟨s, t, haux, hlen, hsum⟩ := getTokenInfoAux_spec g sentences 0 0
      (Nat.zero_le g) (by omega)
    exact ⟨s, t, by simpa using haux, hlen, by simpa using hsum⟩

/-- Witness: C7 applied to the wrapping two-sentence document; index 3
is the empty-text token (consumes an index, emits no box) and still
resolves through `get_token_info`. -/
theorem global_index_continuity_witness :
    (renderTokens cfgW docW.sentences).globalIdx = totalTokens docW.sentences ∧
    (3 ∈ (renderTokens cfgW docW.sentences).boxes.map (fun b => b.globalIdx) ↔
      3 < totalTokens docW.sentences ∧ textAt docW.sentences 3 ≠ "") ∧
    (∃ s t, getTokenInfo docW.sentences 3 = some (s, t) ∧
      t < (docW.sentences.getD s []).length ∧
      totalTokens (docW.sentences.take s) + t = 3) := by
  have h := global_index_continuity cfgW docW.sentences
  exact ⟨h.1, h.2.1 3, h.2.2.2 3 (by decide)⟩

/-- Emitting a box preserves the cursor invariant, provided the new box
either starts at the left margin or fits before the right margin. -/
theorem scanInv_emitToken (c : LayoutCfg) (si ti : Nat) (t : String)
    (st : ScanState)
    (hx : st.x = leftMargin c + st.lineWidth) (hnn : 0 ≤ st.lineWidth)
    (htw : 0 < tokenWidth c t)
    (hfit : st.x ≠ leftMargin c → st.x + tokenWidth c t ≤ c.container.right - 10)
    (hbox : BoxInv c st.boxes) :
    ScanInv c (emitToken c si ti t st) := by
  refine ⟨?_, ?_, ?_, ?_⟩
  · show st.x + tokenWidth c t + 2 = leftMargin c + (st.lineWidth + tokenWidth c t + 2)
    omega
  · constructor
    · intro hc
      exact absurd hc (by simp [emitToken])
    · intro hc
      have : st.lineWidth + tokenWidth c t + 2 = 0 := hc
      omega
  · show (0 : Int) ≤ st.lineWidth + tokenWidth c t + 2
    omega
  · intro b hb
    simp only [emitToken] at hb
    rcases List.mem_append.mp hb with hmem | hmem
    · exact hbox b hmem
    · rcases List.mem_singleton.mp hmem with rfl
      intro hbx
      exact hfit hbx

/-- One step of the token loop preserves the cursor invariant. -/
theorem scanInv_placeToken (c : LayoutCfg) (si ti : Nat) (t : String)
    (st : ScanState) (h : ScanInv c st) : ScanInv c (placeToken c si ti t st) := by
  obtain ⟨hx, hiff, hnn, hbox⟩ := h
  have htw : 0 < tokenWidth c t := by
    unfold tokenWidth
    have h0 : (0 : Int) ≤ (c.fontWidth t : Int) := Int.ofNat_nonneg _
    omega
  by_cases ht : t = ""
  · rw [placeToken, if_pos ht]
    exact ⟨hx, hiff, hnn, hbox⟩
  · rw [placeToken, if_neg ht]
    by_cases hw : maxLineWidth c < st.lineWidth + tokenWidth c t ∧ st.lineTokens ≠ []
    · rw [if_pos hw]
      apply scanInv_emitToken
      · show leftMargin c = leftMargin c + 0
        omega
      · exact le_refl 0
      · exact htw
      · intro hc
        exact absurd rfl hc
      · exact hbox
    · rw [if_neg hw]
      refine scanInv_emitToken c si ti t st hx hnn htw ?_ hbox
      intro hxne
      have hlw : st.lineWidth ≠ 0 := by
        intro h0
        exact hxne (by rw [hx, h0, add_zero])
      have hlt : st.lineTokens ≠ [] := fun hnil => hlw (hiff.mp hnil)
      have hle : ¬ (maxLineWidth c < st.lineWidth + tokenWidth c t) :=
        fun hcon => hw ⟨hcon, hlt⟩
      rw [hx]
      unfold maxLineWidth at hle
      unfold leftMargin Rect.right
      omega

/-- The token loop preserves the cursor invariant. -/
theorem scanInv_placeTokens (c : LayoutCfg) (si : Nat) :
    ∀ (ts : List String) (ti : Nat) (st : ScanState),
      ScanInv c st → ScanInv c (placeTokens c si ti ts st) := by
  intro ts
  induction ts with
  | nil => intro ti st h; exact h
  | cons t ts ih =>
    intro ti st h
    exact ih (ti + 1) _ (scanInv_placeToken c si ti t st h)

/-- The sentence loop keeps every emitted box inside the right margin,
starting from any line-start cursor. -/
theorem boxInv_scanSentences (c : LayoutCfg) :
    ∀ (ss : List (List String)) (si : Nat) (st : ScanState),
      st.x = leftMargin c → st.lineWidth = 0 → st.lineTokens = [] →
      BoxInv c st.boxes → BoxInv c (scanSentences c si ss st).boxes := by
  intro ss
  induction ss with
  | nil => intro si st _ _ _ hb; exact hb
  | cons sent rest ih =>
    intro si st hx hl ht hb
    rw [scanSentences]
    apply ih
    · rfl
    · rfl
    · rfl
    · refine (scanInv_placeTokens c si sent 0 _ ?_).2.2.2
      by_cases hsi : 0 < si
      · rw [if_pos hsi]
        exact ⟨by show st.x = leftMargin c + 0; rw [hx, add_zero],
          by simp, le_refl 0, hb⟩
      · rw [if_neg hsi]
        exact ⟨by rw [hx, hl, add_zero], by rw [ht, hl]; simp,
          by rw [hl], hb⟩

/-- C6: the layout scan is a total function that places every
nonempty-text token exactly once (and so terminates on every document);
a token that would overflow the line wraps exactly one line — y advances
by the line height, x resets to the left margin — except when it is the
first token on its line, in which case it is placed at the cursor even
if too wide, with no further wrapping; consequently every box not
starting at the left margin ends at least 10 pixels before the
container's right edge. -/
theorem layout_wrap_spec (c : LayoutCfg) :
    (∀ sentences, (renderTokens c sentences).boxes.length
      = (sentences.flatten.filter (fun t => !(t == ""))).length) ∧
    (∀ sentences, BoxInv c (renderTokens c sentences).boxes) ∧
    (∀ (si ti : Nat) (text : String) (st : ScanState), text ≠ "" →
      (placeToken c si ti text st).boxes.length = st.boxes.length + 1 ∧
      (st.lineTokens = [] →
        ((placeToken c si ti text st).boxes.getLast?).map (fun b => b.rect)
          = some ⟨st.x, st.y, tokenWidth c text, lineHeightOf c⟩) ∧
      (st.lineTokens ≠ [] →
        maxLineWidth c < st.lineWidth + tokenWidth c text →
        ((placeToken c si ti text st).boxes.getLast?).map (fun b => b.rect)
          = some ⟨leftMargin c, st.y + lineHeightOf c, tokenWidth c text,
              lineHeightOf c⟩) ∧
      (¬ maxLineWidth c < st.lineWidth + tokenWidth c text →
        ((placeToken c si ti text st).boxes.getLast?).map (fun b => b.rect)
          = some ⟨st.x, st.y, tokenWidth c text, lineHeightOf c⟩)) := by
  refine ⟨?_, ?_, ?_⟩
  · intro sentences
    have h := (renderTokens_gi c sentences).2
    have hlen := congrArg List.length h
    rw [List.length_map] at hlen
    rw [hlen, idxTok_length]
  · intro sentences
    exact boxInv_scanSentences c sentences 0 (initScan c) rfl rfl rfl
      (fun b hb => absurd hb (List.not_mem_nil b))
  · intro si ti text st htext
    refine ⟨?_, ?_, ?_, ?_⟩
    · rw [placeToken, if_neg htext]
      split <;> simp [emitToken, wrapLine]
    · intro hlt
      rw [placeToken, if_neg htext, if_neg (fun hcon => hcon.2 hlt)]
      simp [emitToken]
    · intro hlt hover
      rw [placeToken, if_neg htext, if_pos ⟨hover, hlt⟩]
      simp [emitToken, wrapLine]
    · intro hover
      rw [placeToken, if_neg htext, if_neg (fun hcon => hover hcon.1)]
      simp [emitToken]

/-- Witness: C6 applied to the wrapping document and to three concrete
scan steps — a too-wide first token placed at the cursor without
wrapping, an overflowing mid-line token wrapped exactly one line, and a
fitting token placed at the cursor. -/
theorem layout_wrap_witness :
    (renderTokens cfgW docW.sentences).boxes.length
      = (docW.sentences.flatten.filter (fun t => !(t == ""))).length ∧
    BoxInv cfgW (renderTokens cfgW docW.sentences).boxes ∧
    ((placeToken cfgW 0 0 "aaaaaaaaaa" (initScan cfgW)).boxes.getLast?).map
        (fun b => b.rect)
      = some ⟨(initScan cfgW).x, (initScan cfgW).y,
          tokenWidth cfgW "aaaaaaaaaa", lineHeightOf cfgW⟩ ∧
    ((placeToken cfgW 0 1 "eeeee" stScan).boxes.getLast?).map (fun b => b.rect)
      = some ⟨leftMargin cfgW, stScan.y + lineHeightOf cfgW,
          tokenWidth cfgW "eeeee", lineHeightOf cfgW⟩ ∧
    ((placeToken cfgW 0 1 "dddd" stScan).boxes.getLast?).map (fun b => b.rect)
      = some ⟨stScan.x, stScan.y, tokenWidth cfgW "dddd", lineHeightOf cfgW⟩ := by
  have h := layout_wrap_spec cfgW
  refine ⟨h.1 docW.sentences, h.2.1 docW.sentences, ?_, ?_, ?_⟩
  · exact (h.2.2 0 0 "aaaaaaaaaa" (initScan cfgW) (by decide)).2.1 rfl
  · exact (h.2.2 0 1 "eeeee" stScan (by decide)).2.2.1 (by decide) (by decide)
  · exact (h.2.2 0 1 "dddd" stScan (by decide)).2.2.2 (by decide)

/-- The length of a `filterMap` counts the inputs mapped to `some`. -/
theorem length_filterMap_eq_countP (f : α → Option β) :
    ∀ l : List α, (l.filterMap f).length = l.countP (fun a => (f a).isSome) := by
  intro l
  induction l with
  | nil => rfl
  | cons x xs ih =>
    rw [List.filterMap_cons, List.countP_cons]
    cases hf : f x <;> simp [hf, ih]

/-- C9: rendering tolerates dangling relations by omission.  The
rendered relation list is the filter-map of all relation buckets; a
relation whose source or target span key has no rendered entity
contributes nothing (and the total function raises no error); a relation
whose two endpoint entities are rendered is included with those
endpoints; the rendered count is exactly the number of relations whose
two lookups succeed. -/
theorem dangling_relations_skipped (c : LayoutCfg) (doc : Doc)
    (hne : doc.sentences ≠ []) :
    (renderDocument c doc).relations
      = doc.relations.flatten.filterMap
          (renderRelation c.container (renderDocument c doc).elems) ∧
    (∀ r : Relation,
      lookupElem (renderDocument c doc).elems (r.srcStart, r.srcEnd) = none ∨
      lookupElem (renderDocument c doc).elems (r.tgtStart, r.tgtEnd) = none →
      renderRelation c.container (renderDocument c doc).elems r = none) ∧
    (∀ (r : Relation) (se te : EntityInfo),
      lookupElem (renderDocument c doc).elems (r.srcStart, r.srcEnd) = some se →
      lookupElem (renderDocument c doc).elems (r.tgtStart, r.tgtEnd) = some te →
      ∃ ri, renderRelation c.container (renderDocument c doc).elems r = some ri ∧
        ri.src = se ∧ ri.tgt = te ∧ ri.ty = r.ty) ∧
    (renderDocument c doc).relations.length
      = doc.relations.flatten.countP (fun r =>
          (lookupElem (renderDocument c doc).elems (r.srcStart, r.srcEnd)).isSome
          && (lookupElem (renderDocument c doc).elems
              (r.tgtStart, r.tgtEnd)).isSome) := by
  have hrel : (renderDocument c doc).relations
      = doc.relations.flatten.filterMap
          (renderRelation c.container (renderDocument c doc).elems) := by
    simp only [renderDocument, if_neg hne]
  refine ⟨hrel, ?_, ?_, ?_⟩
  · intro r hmiss
    rcases hmiss with h | h
    · rw [renderRelation, h]
    · cases hs : lookupElem (renderDocument c doc).elems (r.srcStart, r.srcEnd) with
      | none => rw [renderRelation, hs]
      | some se => rw [renderRelation, hs, h]
  · intro r se te hse hte
    rw [renderRelation, hse, hte]
    exact ⟨_, rfl, rfl, rfl, rfl⟩
  · rw [hrel, length_filterMap_eq_countP]
    apply List.countP_congr
    intro r _
    cases hs : lookupElem (renderDocument c doc).elems (r.srcStart, r.srcEnd) with
    | none => rw [renderRelation, hs]; simp [hs]
    | some se =>
      cases ht : lookupElem (renderDocument c doc).elems (r.tgtStart, r.tgtEnd) with
      | none => rw [renderRelation, hs, ht]; simp [hs, ht]
      | some te => rw [renderRelation, hs, ht]; simp [hs, ht]

/-- Witness: C9 at the document with one dangling relation (target span
(5,5) unrendered, skipped) and one well-formed relation (both endpoints
rendered, included); exactly one relation is rendered. -/
theorem dangling_relations_witness :
    renderRelation cfgW.container (renderDocument cfgW docW9).elems
      ⟨0, 0, 5, 5, "S"⟩ = none ∧
    (∃ ri, renderRelation cfgW.container (renderDocument cfgW docW9).elems
      ⟨0, 0, 1, 1, "R"⟩ = some ri ∧
      ri.src = ⟨0, 0, "X", "aa", .single ⟨10, 10, 27, 20⟩, false⟩ ∧
      ri.tgt = ⟨1, 1, "Y", "bb", .single ⟨39, 10, 27, 20⟩, false⟩ ∧
      ri.ty = "R") ∧
    (renderDocument cfgW docW9).relations.length = 1 := by
  have h := dangling_relations_skipped cfgW docW9 (by decide)
  refine ⟨h.2.1 ⟨0, 0, 5, 5, "S"⟩ (Or.inr (by decide)), ?_, ?_⟩
  · exact h.2.2.1 ⟨0, 0, 1, 1, "R"⟩ _ _ (by decide) (by decide)
  · exact (h.2.2.2).trans (by decide)

/-- C8 (amended): at render time the label x coordinate is clamped into
[left + 30, right - 30] and the label y only from above (y is at most
bottom - 30); a label that would sit higher than top + 30 is instead
moved just below the upper entity center and can remain above the
container (see the counterexample); the draw step then clamps the drawn
position into [left + 40, right - 40] x [top + 20, bottom - 20]. -/
theorem relation_label_clamp :
    (∀ (container : Rect) (srcC tgtC : Int × Int) (srcTop tgtTop : Int),
      60 ≤ container.w →
      container.x + 30 ≤ (computeLabelPos container srcC tgtC srcTop tgtTop).1 ∧
      (computeLabelPos container srcC tgtC srcTop tgtTop).1
        ≤ container.right - 30 ∧
      (computeLabelPos container srcC tgtC srcTop tgtTop).2
        ≤ container.bottom - 30) ∧
    (∀ (container : Rect) (p : Int × Int), 80 ≤ container.w → 40 ≤ container.h →
      container.x + 40 ≤ (drawLabelPos container p).1 ∧
      (drawLabelPos container p).1 ≤ container.right - 40 ∧
      container.y + 20 ≤ (drawLabelPos container p).2 ∧
      (drawLabelPos container p).2 ≤ container.bottom - 20) := by
  constructor
  · intro container srcC tgtC srcTop tgtTop hw
    unfold computeLabelPos Rect.right Rect.bottom
    refine ⟨?_, ?_, ?_⟩ <;> dsimp only <;> split_ifs <;> omega
  · intro container p hw hh
    unfold drawLabelPos Rect.right Rect.bottom
    refine ⟨?_, ?_, ?_, ?_⟩ <;> dsimp only <;>
      rcases le_total p.1 (container.x + container.w - 40) with h1 | h1 <;>
      rcases le_total p.2 (container.y + container.h - 20) with h2 | h2 <;>
      simp [min_def, max_def, h1, h2] <;> split_ifs <;> omega

/-- Witness: the amended C8 theorem at a concrete container and anchor
configuration. -/
theorem relation_label_clamp_witness :
    ((⟨0, 0, 100, 100⟩ : Rect).x + 30
        ≤ (computeLabelPos ⟨0, 0, 100, 100⟩ (3, -500) (90, -500) (-520) (-520)).1 ∧
      (computeLabelPos ⟨0, 0, 100, 100⟩ (3, -500) (90, -500) (-520) (-520)).1
        ≤ (⟨0, 0, 100, 100⟩ : Rect).right - 30 ∧
      (computeLabelPos ⟨0, 0, 100, 100⟩ (3, -500) (90, -500) (-520) (-520)).2
        ≤ (⟨0, 0, 100, 100⟩ : Rect).bottom - 30) ∧
    ((⟨0, 0, 100, 100⟩ : Rect).x + 40
        ≤ (drawLabelPos ⟨0, 0, 100, 100⟩ (-7, 950)).1 ∧
      (drawLabelPos ⟨0, 0, 100, 100⟩ (-7, 950)).1
        ≤ (⟨0, 0, 100, 100⟩ : Rect).right - 40 ∧
      (⟨0, 0, 100, 100⟩ : Rect).y + 20
        ≤ (drawLabelPos ⟨0, 0, 100, 100⟩ (-7, 950)).2 ∧
      (drawLabelPos ⟨0, 0, 100, 100⟩ (-7, 950)).2
        ≤ (⟨0, 0, 100, 100⟩ : Rect).bottom - 20) :=
  ⟨relation_label_clamp.1 ⟨0, 0, 100, 100⟩ (3, -500) (90, -500) (-520) (-520)
      (by decide),
    relation_label_clamp.2 ⟨0, 0, 100, 100⟩ (-7, 950) (by decide) (by decide)⟩

/-- C8 counterexample: with the document scrolled down 300 pixels, the
rendered relation between the two first-line entities gets label anchor
(37, -160): its y coordinate is far above the container's top edge
(y = 100), let alone above top + margin, refuting the claim that the
render-time label anchor is clamped into the container on all sides. -/
theorem relation_label_escapes_container_top :
    (renderDocument cfgC8 docC8).relations.map (fun ri => (ri.labelX, ri.labelY))
      = [(37, -160)] ∧
    (-160 : Int) < cfgC8.container.y + 30 ∧
    (-160 : Int) < cfgC8.container.y := by
  refine ⟨?_, ?_, ?_⟩ <;> decide

end PLMarker
